import Mathlib

/-!
# Verification of the agricultural data pipeline

Shallow embedding of `AgriculturalDataManager` (src/data_manager.py): the
loader, the temporal normalizer (`clean_data`, `meteo_data_hourly_to_daily`),
the feature joiner (`prepare_features` with its as-of merge, soil left join
and yield enrichment), the risk scorer (`calculate_risk_metrics`) and the two
temporal analyzers (`get_temporal_patterns`, `analyze_yield_patterns`).

Modelling conventions:
* Dates are Python `datetime.toordinal` day numbers (`ℤ`); raw sub-daily
  weather timestamps are `ℚ` (whole days plus an intra-day fraction), and the
  calendar date of a timestamp is its floor.
* Numeric cell values are `ℚ`; a nullable column is `Option ℚ` and pandas NaN
  is `none`.
* External library kernels that are not code of this repository are passed in
  as function parameters where their numeric output is irrational or
  unspecified (sklearn `StandardScaler.fit_transform` as `stdize`, statsmodels
  `seasonal_decompose` as `decomp`, pandas `Series.interpolate` as `interp`,
  `np.random.normal` as `noise`); their raising conditions and everything the
  repository's own code does with their output are modelled concretely.
* `DataFrame.sort_values` (default `kind='quicksort'`, an unstable numpy
  argsort) is modelled as a deterministic insertion sort on the key column.
  The relative order this model fixes among tied keys is a modelling choice,
  not a property of the library sort, so only permutation and sortedness
  facts about it are used downstream — never the identity of tied-row order
  across repeated sorts.
-/

namespace Agri

/-! ## Dates -/

/-- `datetime.date(2024, 1, 1).toordinal()`. -/
def day2024start : ℤ := 738886

/-- `datetime.date(2025, 1, 1).toordinal()`. -/
def day2025start : ℤ := 739252

/-- `ts.dt.year == 2024` for a day-ordinal date. -/
def inYear2024 (d : ℤ) : Bool := decide (day2024start ≤ d) && decide (d < day2025start)

/-- Calendar date (day ordinal) of a sub-daily timestamp: `resample('D')`
buckets a timestamp by the day it falls in. -/
def dayOf (t : ℚ) : ℤ := ⌊t⌋

/-! ## Row types (the tables' schemas as read by the pipeline) -/

/-- One raw weather record (`meteo_detaillee.csv`), sub-daily. -/
structure RawW where
  date : ℚ
  rayonnement_solaire : ℚ
deriving DecidableEq

/-- One daily weather record, as produced by `meteo_data_hourly_to_daily`;
an empty resampling bucket yields a null mean. -/
structure WRow where
  date : ℤ
  rayonnement_solaire : Option ℚ
deriving DecidableEq

/-- One crop-monitoring record (`monitoring_cultures.csv`). -/
structure MRow where
  parcelle_id : String
  date : ℤ
  culture : Option String
  ndvi : Option ℚ
  latitude : Option ℚ
  longitude : Option ℚ
deriving DecidableEq

/-- One static soil record (`sols.csv`). -/
structure SoilRow where
  parcelle_id : String
  ph : Option ℚ
  matiere_organique : Option ℚ
  latitude : Option ℚ
  longitude : Option ℚ
deriving DecidableEq

/-- One yield-history record (`historique_rendements.csv`); `annee` is the
day ordinal of January 1 of the year (`pd.to_datetime(..., format='%Y')`). -/
structure YRow where
  parcelle_id : String
  annee : ℤ
  rendement : Option ℚ
deriving DecidableEq

/-- One row of the joined feature table (`features_daily.csv`).  The soil
latitude/longitude (`latitude_y`/`longitude_y`) are dropped by
`prepare_features` and the monitoring coordinates renamed, so this schema
only ever carries the monitoring-source coordinates. -/
structure FRow where
  parcelle_id : String
  date : ℤ
  culture : Option String
  ndvi : Option ℚ
  latitude : Option ℚ
  longitude : Option ℚ
  rayonnement_solaire : Option ℚ
  ph : Option ℚ
  matiere_organique : Option ℚ
  annee : Option ℤ
  rendement : Option ℚ
  risk_index : Option ℚ
  risk_category : Option String
deriving DecidableEq

/-! ## Sorting (`DataFrame.sort_values` by a date column) -/

variable {α : Type*}

/-- Insert into a key-sorted list (helper for the sort model). -/
def insertByKey (key : α → ℤ) (a : α) : List α → List α
  | [] => [a]
  | b :: bs => if key a ≤ key b then a :: b :: bs else b :: insertByKey key a bs

/-- Sort by an integer key, modelling `sort_values(by=...)` on a date
column.  pandas' default sort kind is numpy's unstable quicksort, so the
order of rows with equal dates is implementation-defined there; this model
fixes one deterministic order, and downstream proofs rely only on the
output being a sorted permutation of the input, never on the tied-row
order itself. -/
def sortByKey (key : α → ℤ) : List α → List α
  | [] => []
  | a :: as => insertByKey key a (sortByKey key as)

/-! ## Data Loader (`load_data`) -/

/-- The manager's four tables right after `load_data`; `none` is an unset
attribute (the constructor initialises all four to `None`). -/
structure Manager0 where
  monitoring_data : Option (List MRow)
  weather_data : Option (List RawW)
  soil_data : Option (List SoilRow)
  yield_history : Option (List YRow)
deriving DecidableEq

/-- `load_data`: the four `pd.read_csv` calls run sequentially inside one
`try`; an argument of `none` is a missing file (`FileNotFoundError`), which
aborts the remaining reads, is caught, reported, and the call returns. -/
def load_data (fm : Option (List MRow)) (fw : Option (List RawW))
    (fs : Option (List SoilRow)) (fy : Option (List YRow)) : Manager0 :=
  match fm, fw, fs, fy with
  | none, _, _, _ => ⟨none, none, none, none⟩
  | some m, none, _, _ => ⟨some m, none, none, none⟩
  | some m, some w, none, _ => ⟨some m, some w, none, none⟩
  | some m, some w, some s, none => ⟨some m, some w, some s, none⟩
  | some m, some w, some s, some y => ⟨some m, some w, some s, some y⟩

/-! ## Temporal Normalizer (`clean_data`, `meteo_data_hourly_to_daily`) -/

/-- `clean_data`: keep only rows whose date falls in 2024, then replace the
solar radiation by its absolute value. -/
def clean_data (w : List RawW) : List RawW :=
  (w.filter fun r => inYear2024 (dayOf r.date)).map
    fun r => { r with rayonnement_solaire := |r.rayonnement_solaire| }

/-- Arithmetic mean of a list of rationals (0 on the empty list, which the
callers never hit on the paths where the value is used). -/
def meanQ (l : List ℚ) : ℚ := l.sum / (l.length : ℚ)

/-- The consecutive day ordinals from `lo` to `hi` inclusive. -/
def dayList (lo hi : ℤ) : List ℤ :=
  (List.range (hi - lo + 1).toNat).map fun i : ℕ => lo + (i : ℤ)

/-- The radiation readings of one resampling bucket: all source rows whose
timestamp falls on calendar day `d`. -/
def dailyBucket (rows : List RawW) (d : ℤ) : List ℚ :=
  (rows.filter fun x => dayOf x.date == d).map RawW.rayonnement_solaire

/-- One output row of the daily resampling: the mean of the day's bucket,
null (NaN) when the bucket is empty. -/
def dailyRow (rows : List RawW) (d : ℤ) : WRow :=
  { date := d
    rayonnement_solaire :=
      if (dailyBucket rows d).isEmpty then none else some (meanQ (dailyBucket rows d)) }

/-- `meteo_data_hourly_to_daily`: `set_index('date').resample('D').mean()`.
pandas emits one output row for every calendar day from the earliest to the
latest input date; a day with no input rows gets a null (NaN) mean, not
dropped.  An empty frame resamples to an empty frame. -/
def meteo_data_hourly_to_daily (rows : List RawW) : List WRow :=
  match rows with
  | [] => []
  | r0 :: rs =>
    let days := (r0 :: rs).map fun x => dayOf x.date
    (dayList (days.foldl min (dayOf r0.date)) (days.foldl max (dayOf r0.date))).map
      (dailyRow (r0 :: rs))

/-! ## Risk Scorer (`calculate_risk_metrics`) -/

/-- `pd.cut(risk_index, bins=[-inf, -1, 0, 1, inf], labels=[...])`: pandas
`cut` defaults to `right=True`, i.e. bins are left-open and right-closed:
`(-inf, -1]`, `(-1, 0]`, `(0, 1]`, `(1, inf)`. -/
def riskCategory (x : ℚ) : String :=
  if x ≤ -1 then "Très Bas"
  else if x ≤ 0 then "Bas"
  else if x ≤ 1 then "Modéré"
  else "Élevé"

/-- Ordinal position of a risk label, for stating monotonicity of the
bucketing. -/
def catRank (s : String) : ℕ :=
  if s = "Très Bas" then 0 else if s = "Bas" then 1 else if s = "Modéré" then 2 else 3

/-- Composite index from one standardized triple:
`0.5*z(rendement) + 0.3*z(ph) + 0.2*z(matiere_organique)`. -/
def riskIndexOf (z : ℚ × ℚ × ℚ) : ℚ :=
  0.5 * z.1 + 0.3 * z.2.1 + 0.2 * z.2.2

/-- A row of an untyped frame handed to the scorer, with the columns the
scorer touches; other columns do not affect its behaviour. -/
structure SRow where
  parcelle_id : Option String
  culture : Option String
  rendement : Option ℚ
  ph : Option ℚ
  matiere_organique : Option ℚ
  risk_index : Option ℚ
  risk_category : Option String
deriving DecidableEq

/-- An untyped frame: the list of column names actually present (so a
required column can be absent, raising `KeyError`) plus the rows. -/
structure Table where
  cols : List String
  rows : List SRow
deriving DecidableEq

/-- The scorer's required columns. -/
def requiredColumns : List String :=
  ["parcelle_id", "culture", "rendement", "ph", "matiere_organique"]

/-- `dropna(subset=required_columns)` row predicate. -/
def srowComplete (r : SRow) : Bool :=
  r.parcelle_id.isSome && r.culture.isSome && r.rendement.isSome
    && r.ph.isSome && r.matiere_organique.isSome

/-- `calculate_risk_metrics` on an untyped frame.  `stdize` is sklearn
`StandardScaler.fit_transform` on the `(rendement, ph, matiere_organique)`
triples; it raises `ValueError` on an empty input, which the surrounding
`except` turns into returning the local `data` — which by then is the
*dropna'd* frame, not the caller's argument.  A missing required column
raises `KeyError` before the dropna, so that path returns the argument. -/
def calculate_risk_metrics (stdize : List (ℚ × ℚ × ℚ) → List (ℚ × ℚ × ℚ))
    (data : Table) : Table :=
  if requiredColumns.all (fun c => data.cols.contains c) then
    let kept := data.rows.filter srowComplete
    if kept.isEmpty then ⟨data.cols, kept⟩
    else
      let zs := stdize (kept.map fun r =>
        (r.rendement.getD 0, r.ph.getD 0, r.matiere_organique.getD 0))
      ⟨data.cols ++ ["risk_index", "risk_category"],
        (kept.zip zs).map fun p =>
          { p.1 with
            risk_index := some (riskIndexOf p.2)
            risk_category := some (riskCategory (riskIndexOf p.2)) }⟩
  else data

/-- `dropna(subset=required_columns)` on the typed feature rows flowing
through `prepare_features`; `parcelle_id` is a plain `String` there, so its
null check is vacuous. -/
def frowComplete (r : FRow) : Bool :=
  r.culture.isSome && r.rendement.isSome && r.ph.isSome && r.matiere_organique.isSome

/-- `calculate_risk_metrics` specialised to the typed feature table built by
`prepare_features`, where the five required columns are present by schema so
the `KeyError` branch is unreachable; otherwise the same logic as
`calculate_risk_metrics`. -/
def calculate_risk_metrics_features (stdize : List (ℚ × ℚ × ℚ) → List (ℚ × ℚ × ℚ))
    (rows : List FRow) : List FRow :=
  let kept := rows.filter frowComplete
  if kept.isEmpty then kept
  else
    let zs := stdize (kept.map fun r =>
      (r.rendement.getD 0, r.ph.getD 0, r.matiere_organique.getD 0))
    (kept.zip zs).map fun p =>
      { p.1 with
        risk_index := some (riskIndexOf p.2)
        risk_category := some (riskCategory (riskIndexOf p.2)) }

/-! ## Feature Joiner (`prepare_features`) -/

/-- Pick, from an accumulator and a list of candidate weather rows, one whose
date is nearest to `t` (strict improvement moves the choice, so ties keep the
earliest candidate in list order). -/
def nearestPick (t : ℤ) (w : WRow) (ws : List WRow) : WRow :=
  ws.foldl (fun best r => if |r.date - t| < |best.date - t| then r else best) w

/-- `pd.merge_asof(..., direction='nearest')` match for one left key `t`:
the weather row nearest in absolute date distance, or no match when the
weather table is empty (NaN weather columns). -/
def asofNearest (ws : List WRow) (t : ℤ) : Option WRow :=
  match ws with
  | [] => none
  | w :: rest => some (nearestPick t w rest)

/-- Assemble the merged row for one monitoring row and its (optional)
matched weather row. -/
def mergeAsofRow (m : MRow) (w : Option WRow) : FRow :=
  { parcelle_id := m.parcelle_id, date := m.date, culture := m.culture
    ndvi := m.ndvi, latitude := m.latitude, longitude := m.longitude
    rayonnement_solaire := w.bind WRow.rayonnement_solaire
    ph := none, matiere_organique := none, annee := none, rendement := none
    risk_index := none, risk_category := none }

/-- `pd.merge_asof(monitoring, weather, on='date', direction='nearest')`:
every monitoring row, in order, paired with its nearest weather row. -/
def merge_asof_nearest (ms : List MRow) (ws : List WRow) : List FRow :=
  ms.map fun m => mergeAsofRow m (asofNearest ws m.date)

/-- `pd.merge(data, soil, how='left', on='parcelle_id')`: one output row per
(left row, matching soil row); a left row with no match is kept with null
soil columns.  The soil coordinates are the `latitude_y`/`longitude_y`
columns that `prepare_features` drops immediately after the yield
enrichment, so they are never copied into the result schema. -/
def soilJoin (rows : List FRow) (soil : List SoilRow) : List FRow :=
  rows.flatMap fun r =>
    match soil.filter (fun s => s.parcelle_id == r.parcelle_id) with
    | [] => [r]
    | m :: ms => (m :: ms).map fun s =>
        { r with ph := s.ph, matiere_organique := s.matiere_organique }

/-- `_enrich_with_yield_history`: convert `annee` to datetime (a no-op on
the day-ordinal representation), keep the 2024 rows, and left-join
`(parcelle_id, annee, rendement)` on `parcelle_id` alone. -/
def enrich_with_yield_history (rows : List FRow) (yh : List YRow) : List FRow :=
  let rendement2024 := yh.filter fun y => inYear2024 y.annee
  rows.flatMap fun r =>
    match rendement2024.filter (fun y => y.parcelle_id == r.parcelle_id) with
    | [] => [r]
    | m :: ms => (m :: ms).map fun y =>
        { r with annee := some y.annee, rendement := y.rendement }

/-- The manager's tables as seen by `prepare_features` (monitoring and
weather already in their joined shapes; the weather table is whatever the
`weather_data` attribute holds when `prepare_features` runs — after the
normalizer, the daily table). -/
structure ManagerP where
  monitoring_data : List MRow
  weather_data : List WRow
  soil_data : List SoilRow
  yield_history : List YRow
deriving DecidableEq

/-- `prepare_features`: sort both time tables in place (the attribute
rebinding `self.monitoring_data = ...sort_values(...)` is the state update),
as-of merge, soil left join, yield enrichment, coordinate dedup/rename
(structural here), risk scoring, persist, and return the table.  No step of
this model raises, so the `except` branch returning `None` is unreachable
and the result is always `some`. -/
def prepare_features (stdize : List (ℚ × ℚ × ℚ) → List (ℚ × ℚ × ℚ))
    (st : ManagerP) : ManagerP × Option (List FRow) :=
  let ms := sortByKey MRow.date st.monitoring_data
  let ws := sortByKey WRow.date st.weather_data
  let data := merge_asof_nearest ms ws
  let data := soilJoin data st.soil_data
  let data := enrich_with_yield_history data st.yield_history
  let data := calculate_risk_metrics_features stdize data
  ({ st with monitoring_data := ms, weather_data := ws }, some data)

/-! ## Temporal Analyzer (`get_temporal_patterns`, `analyze_yield_patterns`) -/

/-- `sklearn.LinearRegression().fit(x, y)` on one predictor: ordinary least
squares, returning (slope, intercept).  On a singular design (all abscissae
equal) sklearn's `lstsq` backend returns the minimum-norm solution: slope 0,
intercept the mean of `y`. -/
def olsFit (pts : List (ℤ × ℚ)) : ℚ × ℚ :=
  let n : ℚ := (pts.length : ℚ)
  let mx := (pts.map fun p => (p.1 : ℚ)).sum / n
  let my := (pts.map Prod.snd).sum / n
  let sxx := (pts.map fun p => ((p.1 : ℚ) - mx) ^ 2).sum
  let sxy := (pts.map fun p => ((p.1 : ℚ) - mx) * (p.2 - my)).sum
  if sxx = 0 then (0, my) else (sxy / sxx, my - sxy / sxx * mx)

/-- `trend_slope / series.mean() if series.mean() != 0 else 0` — the guarded
relative-variation expression shared verbatim by both analyzers. -/
def variationMoyenne (slope m : ℚ) : ℚ := if m = 0 then 0 else slope / m

/-- The `trend` dictionary of `get_temporal_patterns` and the `tendance`
dictionary of `analyze_yield_patterns`. -/
structure Trend where
  pente : ℚ
  intercept : ℚ
  variation_moyenne : ℚ
deriving DecidableEq

/-- Output of statsmodels `seasonal_decompose` (external library, passed in
as a parameter): the three component series, already `dropna`'d where the
source drops the NaN edges. -/
structure DecompRes where
  trend : List ℚ
  seasonal : List ℚ
  resid : List ℚ
deriving DecidableEq

/-- The `summary_stats` dictionary; `var_ndvi` holds the variance whose
square root is the source's `std_ndvi` (the root is irrational, so the
embedding carries its square). -/
structure SummaryStats where
  mean_ndvi : ℚ
  var_ndvi : ℚ
  min_ndvi : ℚ
  max_ndvi : ℚ
deriving DecidableEq

/-- The `history` dictionary of `get_temporal_patterns`. -/
structure History where
  ndvi_trend : List ℚ
  ndvi_seasonal : List ℚ
  ndvi_residual : List ℚ
  ndvi_moving_avg : List ℚ
  summary_stats : SummaryStats
deriving DecidableEq

/-- `Series.min()` (0 only on the empty list, unreachable where used). -/
def minQ : List ℚ → ℚ
  | [] => 0
  | a :: as => as.foldl min a

/-- `Series.max()` (0 only on the empty list, unreachable where used). -/
def maxQ : List ℚ → ℚ
  | [] => 0
  | a :: as => as.foldl max a

/-- Sample variance (`Series.std() ** 2`, ddof = 1); pandas yields NaN for a
single observation, modelled as 0. -/
def varQ (l : List ℚ) : ℚ :=
  if l.length ≤ 1 then 0
  else (l.map fun x => (x - meanQ l) ^ 2).sum / ((l.length : ℚ) - 1)

/-- `rolling(window=30).mean().dropna()`: the mean of each full 30-element
window (the first 29 positions are NaN and dropped). -/
def rolling30 (l : List ℚ) : List ℚ :=
  (List.range l.length).filterMap fun i =>
    if 29 ≤ i then some (meanQ ((l.take (i + 1)).drop (i - 29))) else none

/-- `get_temporal_patterns`: read the persisted feature table (passed here
as `features`), filter to one parcel, and analyze its ndvi series.  `decomp`
is statsmodels `seasonal_decompose` (external).  The `ndvi`-column existence
check cannot fail on the typed schema.  An empty parcel slice and a series
of fewer than 12 non-null points both raise `ValueError`, caught and mapped
to `(None, None)`.  When some ndvi are null, the regression's `X` (every
row's date) and `y` (non-null ndvi only) have different lengths and sklearn
raises, again caught and mapped to `(None, None)`. -/
def get_temporal_patterns (decomp : List ℚ → DecompRes) (features : List FRow)
    (pid : String) : Option History × Option Trend :=
  let pdata := features.filter fun f => f.parcelle_id == pid
  if pdata.isEmpty then (none, none)
  else
    let sorted := sortByKey FRow.date pdata
    let nd := sorted.filterMap FRow.ndvi
    if nd.length < 12 then (none, none)
    else if sorted.length ≠ nd.length then (none, none)
    else
      let d := decomp nd
      let fit := olsFit ((sorted.map FRow.date).zip nd)
      (some { ndvi_trend := d.trend, ndvi_seasonal := d.seasonal
              ndvi_residual := d.resid, ndvi_moving_avg := rolling30 nd
              summary_stats :=
                { mean_ndvi := meanQ nd, var_ndvi := varQ nd
                  min_ndvi := minQ nd, max_ndvi := maxQ nd } },
       some { pente := fit.1, intercept := fit.2
              variation_moyenne := variationMoyenne fit.1 (meanQ nd) })

/-- The `statistiques_resume` dictionary; `variance` holds the square of the
source's `ecart_type`. -/
structure YStats where
  moyenne : ℚ
  variance : ℚ
  minimum : ℚ
  maximum : ℚ
deriving DecidableEq

/-- The result dictionary of `analyze_yield_patterns`. -/
structure YResults where
  tendance : Trend
  residus : List ℚ
  statistiques_resume : YStats
deriving DecidableEq

/-- All-or-nothing extraction of a nullable series: `some` exactly when no
null remains. -/
def allSomeQ : List (Option ℚ) → Option (List ℚ)
  | [] => some []
  | none :: _ => none
  | some x :: rest => (allSomeQ rest).map fun l => x :: l

/-- `analyze_yield_patterns`: filter the yield history to one parcel, sort
by year, interpolate nulls (`interp` is pandas `Series.interpolate`,
external, only invoked when a null is present), inject noise (`noise i` is
the `np.random.normal(0, 0.1)` draw for position `i`) when the series is
constant (`nunique() == 1`), then fit the ordinal-date OLS line and compute
residuals.  An empty parcel slice raises `ValueError`, caught and mapped to
`None`; a null surviving interpolation makes sklearn raise, likewise mapped
to `None`. -/
def analyze_yield_patterns (interp : List (Option ℚ) → List (Option ℚ))
    (noise : ℕ → ℚ) (yh : List YRow) (pid : String) : Option YResults :=
  let rows := yh.filter fun y => y.parcelle_id == pid
  if rows.isEmpty then none
  else
    let rowsS := sortByKey YRow.annee rows
    let ys0 := rowsS.map YRow.rendement
    let ys1 := if ys0.any Option.isNone then interp ys0 else ys0
    match allSomeQ ys1 with
    | none => none
    | some ys2 =>
      let ys3 := if ys2.dedup.length == 1
        then ys2.enum.map (fun p => p.2 + noise p.1) else ys2
      let pts := (rowsS.map YRow.annee).zip ys3
      let fit := olsFit pts
      some { tendance :=
               { pente := fit.1, intercept := fit.2
                 variation_moyenne := variationMoyenne fit.1 (meanQ ys3) }
             residus := pts.map fun p => p.2 - (fit.1 * (p.1 : ℚ) + fit.2)
             statistiques_resume :=
               { moyenne := meanQ ys3, variance := varQ ys3
                 minimum := minQ ys3, maximum := maxQ ys3 } }

/-! ## Helper lemmas -/

theorem perm_insertByKey (key : α → ℤ) (a : α) (l : List α) :
    List.Perm (insertByKey key a l) (a :: l) := by
  induction l with
  | nil => simp [insertByKey]
  | cons b bs ih =>
    simp only [insertByKey]
    split
    · exact List.Perm.refl _
    · exact (ih.cons b).trans (List.Perm.swap a b bs)

theorem perm_sortByKey (key : α → ℤ) (l : List α) :
    List.Perm (sortByKey key l) l := by
  induction l with
  | nil => exact List.Perm.refl _
  | cons a as ih => exact (perm_insertByKey key a _).trans (ih.cons a)

theorem pairwise_insertByKey (key : α → ℤ) (a : α) (l : List α)
    (h : l.Pairwise fun x y => key x ≤ key y) :
    (insertByKey key a l).Pairwise fun x y => key x ≤ key y := by
  induction l with
  | nil => simp [insertByKey]
  | cons b bs ih =>
    simp only [insertByKey]
    rw [List.pairwise_cons] at h
    split
    · rw [List.pairwise_cons]
      constructor
      · intro x hx
        simp only [List.mem_cons] at hx
        rcases hx with rfl | hx
        · assumption
        · exact le_trans (by assumption) (h.1 x hx)
      · exact List.pairwise_cons.mpr h
    · rw [List.pairwise_cons]
      constructor
      · intro x hx
        have hm := (perm_insertByKey key a bs).mem_iff.mp hx
        simp only [List.mem_cons] at hm
        rcases hm with rfl | hx2
        · exact le_of_not_le (by assumption)
        · exact h.1 x hx2
      · exact ih h.2

theorem sorted_sortByKey (key : α → ℤ) (l : List α) :
    (sortByKey key l).Pairwise fun x y => key x ≤ key y := by
  induction l with
  | nil => simp [sortByKey]
  | cons a as ih => exact pairwise_insertByKey key a _ ih

theorem foldl_min_le (l : List ℤ) (a : ℤ) : ∀ x ∈ a :: l, l.foldl min a ≤ x := by
  induction l generalizing a with
  | nil =>
    intro x hx
    simp only [List.mem_cons, List.not_mem_nil, or_false] at hx
    simp [hx]
  | cons b bs ih =>
    intro x hx
    simp only [List.mem_cons] at hx
    simp only [List.foldl_cons]
    rcases hx with rfl | rfl | h
    · exact le_trans (ih (min x b) _ (List.mem_cons_self _ _)) (min_le_left _ _)
    · exact le_trans (ih (min a x) _ (List.mem_cons_self _ _)) (min_le_right _ _)
    · exact ih (min a b) x (List.mem_cons_of_mem _ h)

theorem foldl_max_le (l : List ℤ) (a : ℤ) : ∀ x ∈ a :: l, x ≤ l.foldl max a := by
  induction l generalizing a with
  | nil =>
    intro x hx
    simp only [List.mem_cons, List.not_mem_nil, or_false] at hx
    simp [hx]
  | cons b bs ih =>
    intro x hx
    simp only [List.mem_cons] at hx
    simp only [List.foldl_cons]
    rcases hx with rfl | rfl | h
    · exact le_trans (le_max_left _ _) (ih (max x b) _ (List.mem_cons_self _ _))
    · exact le_trans (le_max_right _ _) (ih (max a x) _ (List.mem_cons_self _ _))
    · exact ih (max a b) x (List.mem_cons_of_mem _ h)

theorem foldl_min_mem (l : List ℤ) (a : ℤ) : l.foldl min a ∈ a :: l := by
  induction l generalizing a with
  | nil => simp
  | cons b bs ih =>
    simp only [List.foldl_cons]
    have h := ih (min a b)
    simp only [List.mem_cons] at h ⊢
    rcases h with h | h
    · rcases min_choice a b with hm | hm
      · exact Or.inl (h.trans hm)
      · exact Or.inr (Or.inl (h.trans hm))
    · exact Or.inr (Or.inr h)

theorem foldl_max_mem (l : List ℤ) (a : ℤ) : l.foldl max a ∈ a :: l := by
  induction l generalizing a with
  | nil => simp
  | cons b bs ih =>
    simp only [List.foldl_cons]
    have h := ih (max a b)
    simp only [List.mem_cons] at h ⊢
    rcases h with h | h
    · rcases max_choice a b with hm | hm
      · exact Or.inl (h.trans hm)
      · exact Or.inr (Or.inl (h.trans hm))
    · exact Or.inr (Or.inr h)

theorem nearestPick_mem (t : ℤ) (w : WRow) (ws : List WRow) :
    nearestPick t w ws ∈ w :: ws := by
  induction ws generalizing w with
  | nil => simp [nearestPick]
  | cons r rs ih =>
    simp only [nearestPick, List.foldl_cons]
    have h := ih (if |r.date - t| < |w.date - t| then r else w)
    simp only [nearestPick] at h
    simp only [List.mem_cons] at h ⊢
    by_cases hc : |r.date - t| < |w.date - t|
    · rw [if_pos hc] at h ⊢; tauto
    · rw [if_neg hc] at h ⊢; tauto

theorem nearestPick_min (t : ℤ) (w : WRow) (ws : List WRow) :
    ∀ r ∈ w :: ws, |(nearestPick t w ws).date - t| ≤ |r.date - t| := by
  induction ws generalizing w with
  | nil =>
    intro r hr
    simp only [List.mem_cons, List.not_mem_nil, or_false] at hr
    simp [nearestPick, hr]
  | cons s rs ih =>
    intro r hr
    simp only [List.mem_cons] at hr
    simp only [nearestPick, List.foldl_cons] at ih ⊢
    have hhead := ih (if |s.date - t| < |w.date - t| then s else w) _ (List.mem_cons_self _ _)
    rcases hr with rfl | rfl | h
    · refine le_trans hhead ?_
      split
      · exact le_of_lt (by assumption)
      · exact le_rfl
    · refine le_trans hhead ?_
      split
      · exact le_rfl
      · exact le_of_not_lt (by assumption)
    · exact ih _ r (List.mem_cons_of_mem _ h)

theorem meanQ_nonneg (l : List ℚ) (h : ∀ x ∈ l, 0 ≤ x) : 0 ≤ meanQ l :=
  div_nonneg (List.sum_nonneg h) (by positivity)

theorem meanQ_perm (l l' : List ℚ) (h : List.Perm l l') : meanQ l = meanQ l' := by
  unfold meanQ
  rw [h.sum_eq, h.length_eq]

theorem mem_dayList (lo hi d : ℤ) : d ∈ dayList lo hi ↔ lo ≤ d ∧ d ≤ hi := by
  unfold dayList
  rw [List.mem_map]
  constructor
  · rintro ⟨i, hmem, rfl⟩
    rw [List.mem_range] at hmem
    have h3 := Int.lt_toNat.mp hmem
    omega
  · rintro ⟨h1, h2⟩
    have hb : (0 : ℤ) < hi - lo + 1 := by omega
    refine ⟨(d - lo).toNat,
      List.mem_range.mpr ((Int.toNat_lt_toNat hb).mpr (by omega)), ?_⟩
    rw [Int.toNat_of_nonneg (by omega : (0 : ℤ) ≤ d - lo)]
    omega

theorem nodup_dayList (lo hi : ℤ) : (dayList lo hi).Nodup := by
  unfold dayList
  refine List.Nodup.map ?_ (List.nodup_range _)
  intro a b hab
  simp only at hab
  omega

theorem allSomeQ_of_no_none (l : List (Option ℚ)) (h : l.any Option.isNone = false) :
    allSomeQ l = some (l.filterMap id) := by
  induction l with
  | nil => rfl
  | cons x xs ih =>
    simp only [List.any_cons, Bool.or_eq_false_iff] at h
    cases x with
    | none => simp [Option.isNone] at h
    | some v => simp [allSomeQ, ih h.2, List.filterMap_cons]

theorem length_filterMap_of_all_some {β γ : Type*} (f : β → Option γ) (l : List β)
    (h : ∀ x ∈ l, (f x).isSome) : (l.filterMap f).length = l.length := by
  induction l with
  | nil => rfl
  | cons x xs ih =>
    cases hf : f x with
    | none =>
      have := h x (List.mem_cons_self x xs)
      rw [hf] at this
      simp at this
    | some v =>
      simp only [List.filterMap_cons, hf, List.length_cons]
      rw [ih fun y hy => h y (List.mem_cons_of_mem x hy)]

/-! ## Claims -/

/-- C1, counterexample: `pd.cut` defaults to right-closed bins, so a
`risk_index` of exactly -1 is labeled "Très Bas" (not "Bas"), exactly 0 is
labeled "Bas" (not "Modéré") and exactly 1 is labeled "Modéré" (not
"Élevé"), refuting the claimed upper-bin boundary semantics. -/
theorem C1_counterexample :
    riskCategory (-1) = "Très Bas" ∧ riskCategory (-1) ≠ "Bas" ∧
    riskCategory 0 = "Bas" ∧ riskCategory 0 ≠ "Modéré" ∧
    riskCategory 1 = "Modéré" ∧ riskCategory 1 ≠ "Élevé" := by
  decide

/-- C1, amended: the risk categorisation is monotonic in `risk_index` with
boundaries exactly -1, 0 and 1, but the bins are left-open and right-closed
(`(-inf,-1]`, `(-1,0]`, `(0,1]`, `(1,inf)`): a value exactly on a boundary
lands in the lower bin, so -1 ↦ "Très Bas", 0 ↦ "Bas", 1 ↦ "Modéré". -/
theorem C1_risk_bins_amended :
    (∀ x y : ℚ, x ≤ y → catRank (riskCategory x) ≤ catRank (riskCategory y)) ∧
    (∀ x : ℚ, riskCategory x = "Très Bas" ↔ x ≤ -1) ∧
    (∀ x : ℚ, riskCategory x = "Bas" ↔ -1 < x ∧ x ≤ 0) ∧
    (∀ x : ℚ, riskCategory x = "Modéré" ↔ 0 < x ∧ x ≤ 1) ∧
    (∀ x : ℚ, riskCategory x = "Élevé" ↔ 1 < x) := by
  refine ⟨?_, ?_, ?_, ?_, ?_⟩
  · intro x y hxy
    unfold riskCategory
    split_ifs <;> first | decide | (exfalso; linarith)
  all_goals
    intro x
    unfold riskCategory
    split_ifs <;> simp_all <;> intros <;> linarith

/-- C1, witness for the amended theorem: monotonicity applied at -2 ≤ -1 and
the "Modéré" bin characterisation evaluated at 1/2. -/
theorem C1_witness :
    catRank (riskCategory (-2)) ≤ catRank (riskCategory (-1)) ∧
    (riskCategory (1 / 2) = "Modéré" ↔ (0 : ℚ) < 1 / 2 ∧ (1 / 2 : ℚ) ≤ 1) :=
  ⟨C1_risk_bins_amended.1 (-2) (-1) (by norm_num),
   C1_risk_bins_amended.2.2.2.1 (1 / 2)⟩

/-- C5, counterexample: with every required column present but the single
row null in `ph`, the `dropna` empties the frame, the scaler raises on the
empty input, and the `except` returns the already-dropped frame — not the
caller's argument: a row was dropped, refuting "returns the input table
unmodified" for computation failures. -/
theorem C5_counterexample :
    calculate_risk_metrics (fun zs => zs)
        ⟨requiredColumns,
          [⟨some "P1", some "Ble", some 4, none, some 2, none, none⟩]⟩ ≠
      ⟨requiredColumns,
        [⟨some "P1", some "Ble", some 4, none, some 2, none, none⟩]⟩ := by
  decide

/-- C5, amended: the scorer never raises; when a required column is missing
it returns its argument unchanged, but when the computation fails after the
`dropna` (the scaler raising on an empty standardisation input) it returns
the argument with the incomplete rows already dropped and no columns
added. -/
theorem C5_scorer_failure_behaviour :
    ∀ (stdize : List (ℚ × ℚ × ℚ) → List (ℚ × ℚ × ℚ)) (t : Table),
      (requiredColumns.all (fun c => t.cols.contains c) = false →
        calculate_risk_metrics stdize t = t) ∧
      (requiredColumns.all (fun c => t.cols.contains c) = true →
        (t.rows.filter srowComplete).isEmpty = true →
        calculate_risk_metrics stdize t = ⟨t.cols, t.rows.filter srowComplete⟩) := by
  intro stdize t
  constructor
  · intro h
    simp only [calculate_risk_metrics, h, Bool.false_eq_true, if_false]
  · intro h1 h2
    simp only [calculate_risk_metrics, h1, h2, if_true]

/-- C5, witness: the missing-column branch on a frame having only
`parcelle_id`, and the computation-failure branch on the one-null-row frame
of the counterexample. -/
theorem C5_witness :
    calculate_risk_metrics (fun zs => zs) ⟨["parcelle_id"], []⟩ =
        ⟨["parcelle_id"], []⟩ ∧
    calculate_risk_metrics (fun zs => zs)
        ⟨requiredColumns,
          [⟨some "P1", some "Ble", some 4, none, some 2, none, none⟩]⟩ =
      ⟨requiredColumns, []⟩ :=
  ⟨(C5_scorer_failure_behaviour (fun zs => zs) ⟨["parcelle_id"], []⟩).1 (by decide),
   (C5_scorer_failure_behaviour (fun zs => zs)
      ⟨requiredColumns,
        [⟨some "P1", some "Ble", some 4, none, some 2, none, none⟩]⟩).2
     (by decide) (by decide)⟩

/-- C6, counterexample: with only the weather file missing, the soil and
yield files are present yet their tables remain unset, because the missing
file aborts the whole sequential `try` block — refuting "sources whose files
are present are loaded". -/
theorem C6_counterexample :
    (load_data (some []) none (some []) (some [])).soil_data = none ∧
    (load_data (some []) none (some []) (some [])).yield_history = none :=
  ⟨rfl, rfl⟩

/-- C6, amended: a missing file is caught and reported and `load_data`
returns normally, but only the sources read *before* the missing one are
loaded; the missing source's table and every subsequent source's table
remain unset. -/
theorem C6_load_data_sequential :
    ∀ (m : List MRow) (w : List RawW) (s : List SoilRow) (y : List YRow),
      load_data none (some w) (some s) (some y) = ⟨none, none, none, none⟩ ∧
      load_data (some m) none (some s) (some y) = ⟨some m, none, none, none⟩ ∧
      load_data (some m) (some w) none (some y) = ⟨some m, some w, none, none⟩ ∧
      load_data (some m) (some w) (some s) none = ⟨some m, some w, some s, none⟩ :=
  fun _ _ _ _ => ⟨rfl, rfl, rfl, rfl⟩

/-- C2: in the as-of merge performed by `prepare_features`
(`direction='nearest'`), every monitoring row is paired with a weather row
whose date is nearest in absolute distance — no unmatched weather row lies
strictly closer — and that merged row is in the joined table. -/
theorem C2_asof_nearest_minimal :
    ∀ (ms : List MRow) (ws : List WRow), ws ≠ [] → ∀ m ∈ ms,
      ∃ w0 : WRow,
        asofNearest (sortByKey WRow.date ws) m.date = some w0 ∧ w0 ∈ ws ∧
        (∀ w ∈ ws, |w0.date - m.date| ≤ |w.date - m.date|) ∧
        mergeAsofRow m (some w0) ∈
          merge_asof_nearest (sortByKey MRow.date ms) (sortByKey WRow.date ws) := by
  intro ms ws hne m hm
  cases hs : sortByKey WRow.date ws with
  | nil =>
    have := perm_sortByKey WRow.date ws
    rw [hs] at this
    exact absurd this.symm.eq_nil hne
  | cons w rest =>
    refine ⟨nearestPick m.date w rest, rfl, ?_, ?_, ?_⟩
    · have hmem := nearestPick_mem m.date w rest
      rw [← hs] at hmem
      exact (perm_sortByKey WRow.date ws).mem_iff.mp hmem
    · intro w2 hw2
      have hw2s : w2 ∈ sortByKey WRow.date ws :=
        (perm_sortByKey WRow.date ws).mem_iff.mpr hw2
      rw [hs] at hw2s
      exact nearestPick_min m.date w rest w2 hw2s
    · have hmS : m ∈ sortByKey MRow.date ms :=
        (perm_sortByKey MRow.date ms).mem_iff.mpr hm
      have hin : mergeAsofRow m (asofNearest (sortByKey WRow.date ws) m.date) ∈
          merge_asof_nearest (sortByKey MRow.date ms) (sortByKey WRow.date ws) :=
        List.mem_map_of_mem _ hmS
      rw [hs] at hin
      simpa [merge_asof_nearest, asofNearest, hs] using hin

/-- C2, witness: one monitoring row on day 10 against weather rows on days 9
and 12 — the attached snapshot is the day-9 one, nearest on either side. -/
theorem C2_witness :
    ∃ w0 : WRow,
      asofNearest (sortByKey WRow.date [⟨9, some 3⟩, ⟨12, some 5⟩])
          (⟨"P001", 10, none, none, none, none⟩ : MRow).date = some w0 ∧
      w0 ∈ [⟨9, some 3⟩, ⟨12, some 5⟩] ∧
      (∀ w ∈ [(⟨9, some 3⟩ : WRow), ⟨12, some 5⟩],
        |w0.date - (⟨"P001", 10, none, none, none, none⟩ : MRow).date| ≤
          |w.date - (⟨"P001", 10, none, none, none, none⟩ : MRow).date|) ∧
      mergeAsofRow ⟨"P001", 10, none, none, none, none⟩ (some w0) ∈
        merge_asof_nearest
          (sortByKey MRow.date [⟨"P001", 10, none, none, none, none⟩])
          (sortByKey WRow.date [⟨9, some 3⟩, ⟨12, some 5⟩]) :=
  C2_asof_nearest_minimal [⟨"P001", 10, none, none, none, none⟩]
    [⟨9, some 3⟩, ⟨12, some 5⟩] (by decide)
    ⟨"P001", 10, none, none, none, none⟩ (by decide)

/-- C3, counterexample: resampling rows on days 0 and 2 produces a row for
the empty day 1 carrying a null mean — a calendar date with zero source rows
is present in the output (with NaN), not absent as claimed. -/
theorem C3_counterexample :
    (⟨1, none⟩ : WRow) ∈ meteo_data_hourly_to_daily [⟨0, 5⟩, ⟨2, 7⟩] ∧
    dailyBucket [⟨0, 5⟩, ⟨2, 7⟩] 1 = [] ∧
    meteo_data_hourly_to_daily [⟨0, 5⟩, ⟨2, 7⟩] =
      [⟨0, some 5⟩, ⟨1, none⟩, ⟨2, some 7⟩] := by
  refine ⟨by decide, by decide, ?_⟩
  have hskel : meteo_data_hourly_to_daily [⟨0, 5⟩, ⟨2, 7⟩] =
      [⟨0, some (meanQ [5])⟩, ⟨1, none⟩, ⟨2, some (meanQ [7])⟩] := rfl
  rw [show meanQ [5] = 5 by norm_num [meanQ],
      show meanQ [7] = 7 by norm_num [meanQ]] at hskel
  exact hskel

/-- C3, amended: the daily-resampled output has exactly one row per calendar
day in the closed span from the earliest to the latest source day; a day with
at least one source row holds the arithmetic mean of that day's readings, a
day with zero source rows inside the span is present with a null value, and
no output date lies outside the span (so when all source dates fall in the
target year, every output date does too). -/
theorem C3_resample_semantics :
    ∀ rows : List RawW,
      ((meteo_data_hourly_to_daily rows).Pairwise fun a b => a.date ≠ b.date) ∧
      (∀ w ∈ meteo_data_hourly_to_daily rows,
        (dailyBucket rows w.date ≠ [] →
          w.rayonnement_solaire = some (meanQ (dailyBucket rows w.date))) ∧
        (dailyBucket rows w.date = [] → w.rayonnement_solaire = none) ∧
        (∃ r1 ∈ rows, dayOf r1.date ≤ w.date) ∧
        (∃ r2 ∈ rows, w.date ≤ dayOf r2.date)) ∧
      (∀ d : ℤ, (∃ r1 ∈ rows, dayOf r1.date ≤ d) → (∃ r2 ∈ rows, d ≤ dayOf r2.date) →
        ∃ w ∈ meteo_data_hourly_to_daily rows, w.date = d) := by
  intro rows
  cases rows with
  | nil =>
    refine ⟨by simp [meteo_data_hourly_to_daily], ?_, ?_⟩
    · intro w hw
      simp [meteo_data_hourly_to_daily] at hw
    · intro d h1 h2
      simp at h1
  | cons r0 rs =>
    have hout : meteo_data_hourly_to_daily (r0 :: rs) =
        (dayList (((r0 :: rs).map fun x => dayOf x.date).foldl min (dayOf r0.date))
            (((r0 :: rs).map fun x => dayOf x.date).foldl max (dayOf r0.date))).map
          (dailyRow (r0 :: rs)) := rfl
    set days := (r0 :: rs).map fun x => dayOf x.date with hdays
    set lo := days.foldl min (dayOf r0.date) with hlo
    set hi := days.foldl max (dayOf r0.date) with hhi
    have hlo_le : ∀ r ∈ r0 :: rs, lo ≤ dayOf r.date := by
      intro r hr
      exact foldl_min_le days (dayOf r0.date) (dayOf r.date)
        (List.mem_cons_of_mem _ (List.mem_map_of_mem _ hr))
    have hle_hi : ∀ r ∈ r0 :: rs, dayOf r.date ≤ hi := by
      intro r hr
      exact foldl_max_le days (dayOf r0.date) (dayOf r.date)
        (List.mem_cons_of_mem _ (List.mem_map_of_mem _ hr))
    have hlo_attained : ∃ r ∈ r0 :: rs, dayOf r.date = lo := by
      have hm := foldl_min_mem days (dayOf r0.date)
      simp only [List.mem_cons] at hm
      rcases hm with hm | hm
      · exact ⟨r0, List.mem_cons_self _ _, hm.symm⟩
      · rw [hdays] at hm
        obtain ⟨r, hr, hrd⟩ := List.mem_map.mp hm
        exact ⟨r, hr, hrd⟩
    have hhi_attained : ∃ r ∈ r0 :: rs, dayOf r.date = hi := by
      have hm := foldl_max_mem days (dayOf r0.date)
      simp only [List.mem_cons] at hm
      rcases hm with hm | hm
      · exact ⟨r0, List.mem_cons_self _ _, hm.symm⟩
      · rw [hdays] at hm
        obtain ⟨r, hr, hrd⟩ := List.mem_map.mp hm
        exact ⟨r, hr, hrd⟩
    refine ⟨?_, ?_, ?_⟩
    · rw [hout]
      rw [List.pairwise_map]
      exact (nodup_dayList lo hi).imp fun hab => by simpa [dailyRow] using hab
    · intro w hw
      rw [hout] at hw
      obtain ⟨d, hd, rfl⟩ := List.mem_map.mp hw
      rw [mem_dayList] at hd
      refine ⟨?_, ?_, ?_, ?_⟩
      · intro hb
        have hne : ((dailyBucket (r0 :: rs) d).isEmpty) = false := by
          simp only [dailyRow] at hb ⊢
          simpa [List.isEmpty_iff] using hb
        simp [dailyRow, hne]
      · intro hb
        have hemp : ((dailyBucket (r0 :: rs) d).isEmpty) = true := by
          simp only [dailyRow] at hb
          simp [List.isEmpty_iff, hb]
        simp [dailyRow, hemp]
      · obtain ⟨r, hr, hrd⟩ := hlo_attained
        exact ⟨r, hr, by simp [dailyRow, hrd, hd.1]⟩
      · obtain ⟨r, hr, hrd⟩ := hhi_attained
        exact ⟨r, hr, by simp [dailyRow, hrd, hd.2]⟩
    · intro d h1 h2
      obtain ⟨r1, hr1, hd1⟩ := h1
      obtain ⟨r2, hr2, hd2⟩ := h2
      have hd : d ∈ dayList lo hi :=
        (mem_dayList lo hi d).mpr ⟨le_trans (hlo_le r1 hr1) hd1, le_trans hd2 (hle_hi r2 hr2)⟩
      refine ⟨dailyRow (r0 :: rs) d, ?_, rfl⟩
      rw [hout]
      exact List.mem_map_of_mem _ hd

/-- C3, witness: with source rows on days 0 and 2, the in-span empty day 1
appears in the resampled output. -/
theorem C3_witness :
    ∃ w ∈ meteo_data_hourly_to_daily [⟨0, 5⟩, ⟨2, 7⟩], w.date = 1 :=
  (C3_resample_semantics [⟨0, 5⟩, ⟨2, 7⟩]).2.2 1
    ⟨⟨0, 5⟩, by decide, by decide⟩ ⟨⟨2, 7⟩, by decide, by decide⟩

/-- Radiation-value provenance through the as-of merge: a merged row's
radiation is null (empty weather table) or copied from some weather row. -/
theorem merge_asof_ray (ms : List MRow) (ws : List WRow) :
    ∀ f ∈ merge_asof_nearest ms ws,
      f.rayonnement_solaire = none ∨
        ∃ w ∈ ws, f.rayonnement_solaire = w.rayonnement_solaire := by
  intro f hf
  obtain ⟨m, hm, rfl⟩ := List.mem_map.mp hf
  cases hws : asofNearest ws m.date with
  | none =>
    left
    simp [mergeAsofRow, hws]
  | some w0 =>
    right
    refine ⟨w0, ?_, by simp [mergeAsofRow, hws]⟩
    cases ws with
    | nil => simp [asofNearest] at hws
    | cons a rest =>
      simp only [asofNearest, Option.some.injEq] at hws
      rw [← hws]
      exact nearestPick_mem m.date a rest

/-- Radiation-value provenance through the soil left join. -/
theorem soilJoin_ray (rows : List FRow) (soil : List SoilRow) :
    ∀ f ∈ soilJoin rows soil,
      ∃ g ∈ rows, f.rayonnement_solaire = g.rayonnement_solaire := by
  intro f hf
  unfold soilJoin at hf
  rw [List.mem_flatMap] at hf
  obtain ⟨r, hr, hfr⟩ := hf
  refine ⟨r, hr, ?_⟩
  revert hfr
  cases soil.filter (fun s => s.parcelle_id == r.parcelle_id) with
  | nil =>
    intro hfr
    simp only [List.mem_singleton] at hfr
    rw [hfr]
  | cons s ss =>
    intro hfr
    obtain ⟨s2, _, rfl⟩ := List.mem_map.mp hfr
    rfl

/-- Radiation-value provenance through the yield enrichment. -/
theorem enrich_ray (rows : List FRow) (yh : List YRow) :
    ∀ f ∈ enrich_with_yield_history rows yh,
      ∃ g ∈ rows, f.rayonnement_solaire = g.rayonnement_solaire := by
  intro f hf
  unfold enrich_with_yield_history at hf
  rw [List.mem_flatMap] at hf
  obtain ⟨r, hr, hfr⟩ := hf
  refine ⟨r, hr, ?_⟩
  revert hfr
  cases (yh.filter fun y => inYear2024 y.annee).filter
      (fun y => y.parcelle_id == r.parcelle_id) with
  | nil =>
    intro hfr
    simp only [List.mem_singleton] at hfr
    rw [hfr]
  | cons s ss =>
    intro hfr
    obtain ⟨s2, _, rfl⟩ := List.mem_map.mp hfr
    rfl

/-- Radiation-value provenance through the risk-scoring stage. -/
theorem risk_features_ray (stdize : List (ℚ × ℚ × ℚ) → List (ℚ × ℚ × ℚ))
    (rows : List FRow) :
    ∀ f ∈ calculate_risk_metrics_features stdize rows,
      ∃ g ∈ rows, f.rayonnement_solaire = g.rayonnement_solaire := by
  intro f hf
  simp only [calculate_risk_metrics_features] at hf
  split at hf
  · exact ⟨f, List.mem_of_mem_filter hf, rfl⟩
  · obtain ⟨⟨g, z⟩, hp, rfl⟩ := List.mem_map.mp hf
    exact ⟨g, List.mem_of_mem_filter (List.of_mem_zip hp).1, rfl⟩

/-- `clean_data` leaves only non-negative radiation readings. -/
theorem clean_data_nonneg (w : List RawW) :
    ∀ r ∈ clean_data w, 0 ≤ r.rayonnement_solaire := by
  intro r hr
  unfold clean_data at hr
  obtain ⟨x, _, rfl⟩ := List.mem_map.mp hr
  exact abs_nonneg _

/-- Resampling non-negative readings yields non-negative daily means. -/
theorem resample_nonneg (rows : List RawW)
    (h : ∀ r ∈ rows, 0 ≤ r.rayonnement_solaire) :
    ∀ w ∈ meteo_data_hourly_to_daily rows, ∀ v : ℚ,
      w.rayonnement_solaire = some v → 0 ≤ v := by
  intro w hw v hv
  cases rows with
  | nil => simp [meteo_data_hourly_to_daily] at hw
  | cons r0 rs =>
    obtain ⟨d, hd, rfl⟩ := List.mem_map.mp hw
    simp only [dailyRow] at hv
    split at hv
    · exact absurd hv (by simp)
    · rw [Option.some.injEq] at hv
      rw [← hv]
      apply meanQ_nonneg
      intro x hx
      obtain ⟨y, hy, rfl⟩ := List.mem_map.mp hx
      exact h y (List.mem_of_mem_filter hy)

/-- C4: after Loader → Normalizer (year filter, absolute-value sign fix,
daily resampling) → Joiner, every radiation value in the normalized weather
table and in every joined feature row is non-negative: the sign correction
happens before resampling and before the as-of join. -/
theorem C4_radiation_nonneg :
    ∀ raw : List RawW,
      (∀ r ∈ clean_data raw, 0 ≤ r.rayonnement_solaire) ∧
      (∀ w ∈ meteo_data_hourly_to_daily (clean_data raw), ∀ v : ℚ,
        w.rayonnement_solaire = some v → 0 ≤ v) ∧
      (∀ (stdize : List (ℚ × ℚ × ℚ) → List (ℚ × ℚ × ℚ)) (ms : List MRow)
          (soil : List SoilRow) (yh : List YRow) (f : FRow) (v : ℚ),
        f ∈ (prepare_features stdize
            ⟨ms, meteo_data_hourly_to_daily (clean_data raw), soil, yh⟩).2.getD [] →
        f.rayonnement_solaire = some v → 0 ≤ v) := by
  intro raw
  have h1 := clean_data_nonneg raw
  have h2 := resample_nonneg (clean_data raw) h1
  refine ⟨h1, h2, ?_⟩
  intro stdize ms soil yh f v hf hv
  have hf2 : f ∈ calculate_risk_metrics_features stdize
      (enrich_with_yield_history
        (soilJoin
          (merge_asof_nearest (sortByKey MRow.date ms)
            (sortByKey WRow.date (meteo_data_hourly_to_daily (clean_data raw))))
          soil) yh) := by
    simpa [prepare_features] using hf
  obtain ⟨g1, hg1, he1⟩ := risk_features_ray stdize _ f hf2
  obtain ⟨g2, hg2, he2⟩ := enrich_ray _ yh g1 hg1
  obtain ⟨g3, hg3, he3⟩ := soilJoin_ray _ soil g2 hg2
  rcases merge_asof_ray _ _ g3 hg3 with hnone | ⟨w, hw, he4⟩
  · rw [he1, he2, he3, hnone] at hv
    cases hv
  · have hwmem : w ∈ meteo_data_hourly_to_daily (clean_data raw) :=
      (perm_sortByKey WRow.date _).mem_iff.mp hw
    apply h2 w hwmem v
    rw [← he4, ← he3, ← he2, ← he1]
    exact hv

/-- C4, witness: the spec scenario's raw reading of -3.0 (on a 2024 date)
survives the normalizer as 3.0, and the theorem applied there gives its
non-negativity. -/
theorem C4_witness :
    meteo_data_hourly_to_daily (clean_data [⟨738886, -3⟩]) = [⟨738886, some 3⟩] ∧
    (0 : ℚ) ≤ 3 := by
  have hskel : meteo_data_hourly_to_daily (clean_data [⟨738886, -3⟩]) =
      [⟨738886, some (meanQ [3])⟩] := rfl
  rw [show meanQ [3] = 3 from by norm_num [meanQ]] at hskel
  refine ⟨hskel, ?_⟩
  exact (C4_radiation_nonneg [⟨738886, -3⟩]).2.1 ⟨738886, some 3⟩
    (by rw [hskel]; exact List.mem_singleton.mpr rfl) 3 rfl

/-- C7: a parcel with fewer than 12 non-null ndvi observations makes
`get_temporal_patterns` report the failure and return `(None, None)` instead
of propagating the exception. -/
theorem C7_insufficient_ndvi :
    ∀ (decomp : List ℚ → DecompRes) (features : List FRow) (pid : String),
      ((features.filter fun f => f.parcelle_id == pid).filterMap FRow.ndvi).length < 12 →
      get_temporal_patterns decomp features pid = (none, none) := by
  intro decomp features pid h
  simp only [get_temporal_patterns]
  by_cases he : (features.filter fun f => f.parcelle_id == pid).isEmpty
  · rw [if_pos he]
  · rw [if_neg he]
    have hlen : ((sortByKey FRow.date (features.filter fun f => f.parcelle_id == pid)).filterMap
        FRow.ndvi).length < 12 := by
      rw [((perm_sortByKey FRow.date _).filterMap FRow.ndvi).length_eq]
      exact h
    rw [if_pos hlen]

/-- C7, witness: the empty feature table has 0 < 12 non-null ndvi rows for
"P001" and the analyzer returns the empty pair. -/
theorem C7_witness :
    get_temporal_patterns (fun _ => ⟨[], [], []⟩) [] "P001" = (none, none) :=
  C7_insufficient_ndvi (fun _ => ⟨[], [], []⟩) [] "P001" (by decide)

/-- A mapped rendement series all equal to `some c` triggers no null. -/
theorem any_isNone_false_of_all_some (l : List YRow) (c : ℚ)
    (h : ∀ y ∈ l, y.rendement = some c) :
    (l.map YRow.rendement).any Option.isNone = false := by
  rw [List.any_eq_false]
  intro o ho
  obtain ⟨y, hy, rfl⟩ := List.mem_map.mp ho
  rw [h y hy]
  simp

/-- C8: on a parcel whose yield series is constant (every rendement equal to
the same non-null value), `analyze_yield_patterns` does not raise: noise is
injected before the regression and the call returns a non-null result whose
residual series covers every year of the parcel's history (the trend
parameters and summary statistics are the remaining fields of the result). -/
theorem C8_constant_yield_returns :
    ∀ (interp : List (Option ℚ) → List (Option ℚ)) (noise : ℕ → ℚ)
      (yh : List YRow) (pid : String) (c : ℚ),
      (yh.filter fun y => y.parcelle_id == pid) ≠ [] →
      (∀ y ∈ yh.filter fun y => y.parcelle_id == pid, y.rendement = some c) →
      ∃ res : YResults, analyze_yield_patterns interp noise yh pid = some res ∧
        res.residus.length = (yh.filter fun y => y.parcelle_id == pid).length := by
  intro interp noise yh pid c hne hconst
  simp only [analyze_yield_patterns]
  have hne2 : ¬ ((yh.filter fun y => y.parcelle_id == pid).isEmpty = true) := by
    intro hcon
    exact hne (List.isEmpty_iff.mp hcon)
  rw [if_neg hne2]
  have hSome : ∀ y ∈ sortByKey YRow.annee (yh.filter fun y => y.parcelle_id == pid),
      y.rendement = some c :=
    fun y hy => hconst y ((perm_sortByKey _ _).mem_iff.mp hy)
  have hany := any_isNone_false_of_all_some _ c hSome
  rw [if_neg (by rw [hany]; exact Bool.false_ne_true)]
  rw [allSomeQ_of_no_none _ hany]
  refine ⟨_, rfl, ?_⟩
  have hlenL : (((sortByKey YRow.annee (yh.filter fun y => y.parcelle_id == pid)).map
      YRow.rendement).filterMap id).length =
      (yh.filter fun y => y.parcelle_id == pid).length := by
    rw [length_filterMap_of_all_some]
    · rw [List.length_map, (perm_sortByKey YRow.annee _).length_eq]
    · intro o ho
      obtain ⟨y, hy, rfl⟩ := List.mem_map.mp ho
      rw [hSome y hy]
      rfl
  simp only [List.length_map, List.length_zip, apply_ite List.length, List.enum_length,
    ite_self, hlenL, (perm_sortByKey YRow.annee _).length_eq]
  exact Nat.min_self _

/-- C8, witness: the spec scenario — parcel "P002", constant 4.0 t/ha across
5 years — returns a non-null result with one residual per year. -/
theorem C8_witness :
    ∃ res : YResults,
      analyze_yield_patterns (fun l => l) (fun i => (i : ℚ) / 10)
          [⟨"P002", 1, some 4⟩, ⟨"P002", 2, some 4⟩, ⟨"P002", 3, some 4⟩,
            ⟨"P002", 4, some 4⟩, ⟨"P002", 5, some 4⟩] "P002" = some res ∧
      res.residus.length =
        (([⟨"P002", 1, some 4⟩, ⟨"P002", 2, some 4⟩, ⟨"P002", 3, some 4⟩,
            ⟨"P002", 4, some 4⟩, ⟨"P002", 5, some 4⟩] : List YRow).filter
          fun y => y.parcelle_id == "P002").length :=
  C8_constant_yield_returns (fun l => l) (fun i => (i : ℚ) / 10) _ "P002" 4
    (by decide) (by decide)

/-- C10: the relative-variation expression is guarded in both analyzers — it
is 0 whenever the series mean is 0 (no division is attempted), and both
`get_temporal_patterns` and `analyze_yield_patterns` compute their
`variation_moyenne` through that guard, applied to the returned slope and
the analyzed series' mean. -/
theorem C10_variation_guard :
    (∀ s m : ℚ, m = 0 → variationMoyenne s m = 0) ∧
    (∀ (decomp : List ℚ → DecompRes) (features : List FRow) (pid : String)
        (oh : Option History) (t : Trend),
      get_temporal_patterns decomp features pid = (oh, some t) →
      t.variation_moyenne =
        variationMoyenne t.pente
          (meanQ ((features.filter fun f => f.parcelle_id == pid).filterMap FRow.ndvi))) ∧
    (∀ (interp : List (Option ℚ) → List (Option ℚ)) (noise : ℕ → ℚ)
        (yh : List YRow) (pid : String) (res : YResults),
      analyze_yield_patterns interp noise yh pid = some res →
      (∀ y ∈ yh.filter fun y => y.parcelle_id == pid, (y.rendement).isSome) →
      ((yh.filter fun y => y.parcelle_id == pid).filterMap YRow.rendement).dedup.length ≠ 1 →
      res.tendance.variation_moyenne =
        variationMoyenne res.tendance.pente
          (meanQ ((yh.filter fun y => y.parcelle_id == pid).filterMap YRow.rendement))) := by
  refine ⟨?_, ?_, ?_⟩
  · intro s m hm
    rw [hm]
    simp [variationMoyenne]
  · intro decomp features pid oh t h
    simp only [get_temporal_patterns] at h
    by_cases he : (features.filter fun f => f.parcelle_id == pid).isEmpty
    · rw [if_pos he] at h
      simp at h
    · rw [if_neg he] at h
      by_cases hlen : ((sortByKey FRow.date (features.filter fun f =>
          f.parcelle_id == pid)).filterMap FRow.ndvi).length < 12
      · rw [if_pos hlen] at h
        simp at h
      · rw [if_neg hlen] at h
        by_cases hmis : (sortByKey FRow.date (features.filter fun f =>
            f.parcelle_id == pid)).length ≠ ((sortByKey FRow.date (features.filter fun f =>
            f.parcelle_id == pid)).filterMap FRow.ndvi).length
        · rw [if_pos hmis] at h
          simp at h
        · rw [if_neg hmis] at h
          rw [Prod.mk.injEq] at h
          obtain ⟨h1, h2⟩ := h
          rw [Option.some.injEq] at h2
          rw [← h2]
          rw [meanQ_perm _ _ ((perm_sortByKey FRow.date _).filterMap FRow.ndvi)]
  · intro interp noise yh pid res h hsome hded
    simp only [analyze_yield_patterns] at h
    by_cases he : (yh.filter fun y => y.parcelle_id == pid).isEmpty
    · rw [if_pos he] at h
      cases h
    · rw [if_neg he] at h
      have hSm : ∀ y ∈ sortByKey YRow.annee (yh.filter fun y => y.parcelle_id == pid),
          (y.rendement).isSome :=
        fun y hy => hsome y ((perm_sortByKey _ _).mem_iff.mp hy)
      have hany : (((sortByKey YRow.annee (yh.filter fun y => y.parcelle_id == pid)).map
          YRow.rendement).any Option.isNone) = false := by
        rw [List.any_eq_false]
        intro o ho
        obtain ⟨y, hy, rfl⟩ := List.mem_map.mp ho
        have hs := hSm y hy
        cases hr : y.rendement with
        | none => rw [hr] at hs; simp at hs
        | some v => simp
      rw [if_neg (by rw [hany]; exact Bool.false_ne_true)] at h
      rw [allSomeQ_of_no_none _ hany] at h
      have hperm2 : List.Perm
          (((sortByKey YRow.annee (yh.filter fun y => y.parcelle_id == pid)).map
            YRow.rendement).filterMap id)
          ((yh.filter fun y => y.parcelle_id == pid).filterMap YRow.rendement) := by
        rw [List.filterMap_map]
        simp only [Function.id_comp]
        exact (perm_sortByKey YRow.annee _).filterMap YRow.rendement
      have hded2 : ¬ ((((sortByKey YRow.annee (yh.filter fun y =>
          y.parcelle_id == pid)).map YRow.rendement).filterMap id).dedup.length == 1) = true := by
        rw [beq_iff_eq]
        intro hc
        apply hded
        rw [← hperm2.dedup.length_eq]
        exact hc
      simp only [if_neg hded2] at h
      rw [Option.some.injEq] at h
      rw [← h]
      rw [meanQ_perm _ _ hperm2]

/-- C10, witness: the guard applied at slope 5 and mean 0 yields 0. -/
theorem C10_witness : variationMoyenne 5 0 = 0 :=
  C10_variation_guard.1 5 0 rfl

end Agri
